import Mathlib

/-!
Verification development for the SSF (Secure Socket Funneling) core:
a shallow embedding of the admin service serial/handler management
(`src/services/admin/admin.h`), the proxy configuration predicates
(`src/common/config/proxy.h`), the link-layer endpoint construction
(`src/network/ssf/layer/...`), and the buffered TLS stream adapter
(`src/network/ssf/layer/cryptography/tls/OpenSSL/impl.h`).
-/

namespace SSFSpec

/-! ### Association maps

`std::map<uint32_t, ...>` keyed access is modelled by association lists with
unique keys.  `assocErase` removes every binding of the key (on the unique-key
states produced by `assocSet` this coincides with `std::map::erase`). -/

def assocLookup {α β : Type} [DecidableEq α] (k : α) : List (α × β) → Option β
  | [] => none
  | (k2, v) :: r => if k2 = k then some v else assocLookup k r

def assocSet {α β : Type} [DecidableEq α] (k : α) (v : β) : List (α × β) → List (α × β)
  | [] => [(k, v)]
  | (k2, v2) :: r => if k2 = k then (k, v) :: r else (k2, v2) :: assocSet k v r

def assocErase {α β : Type} [DecidableEq α] (k : α) : List (α × β) → List (α × β)
  | [] => []
  | (k2, v2) :: r => if k2 = k then assocErase k r else (k2, v2) :: assocErase k r

theorem assocLookup_assocSet_self {α β : Type} [DecidableEq α] (k : α) (v : β)
    (m : List (α × β)) : assocLookup k (assocSet k v m) = some v := by
  induction m with
  | nil => simp [assocSet, assocLookup]
  | cons hd tl ih =>
    obtain ⟨k2, v2⟩ := hd
    by_cases hk : k2 = k
    · simp [assocSet, hk, assocLookup]
    · simp [assocSet, hk, assocLookup, ih]

theorem assocLookup_assocErase_self {α β : Type} [DecidableEq α] (k : α)
    (m : List (α × β)) : assocLookup k (assocErase k m) = none := by
  induction m with
  | nil => simp [assocErase, assocLookup]
  | cons hd tl ih =>
    obtain ⟨k2, v2⟩ := hd
    by_cases hk : k2 = k
    · simp [assocErase, hk, ih]
    · simp [assocErase, hk, assocLookup, ih]

/-! ### Admin service: command serials and reply handlers

From `src/src/services/admin/admin.h`.  `IdToCommandHandlerMap` is
`std::map<uint32_t, CommandHandler>`; handlers are identified by a numeric id
(the placeholder lambda registered by `GetAvailableSerial` is id 0).
All `uint32_t` arithmetic in `GetAvailableSerial` stays below `2^32`
(the loop stops at `serial < 2^32 - 1` and adds at most 1), so plain `Nat`
is an exact model. -/

abbrev HandlerMap := List (Nat × Nat)

/-- The allocation loop of `Admin::GetAvailableSerial` (admin.h:137-144):
`for (serial = 3; serial < uint32_max; ++serial)`, probing
`serial + !!is_server_`; on the first free probe it registers a placeholder
handler and returns the probe.  `fuel` counts the remaining iterations. -/
def serialLoop (m : HandlerMap) (off : Nat) : Nat → Nat → Nat × HandlerMap
  | 0, _ => (0, m)
  | fuel + 1, serial =>
    if (assocLookup (serial + off) m).isSome then serialLoop m off fuel (serial + 1)
    else (serial + off, assocSet (serial + off) 0 m)

/-- `Admin::GetAvailableSerial` (admin.h:134-146).  Returns the allocated
serial together with the updated handler table; returns serial 0 (table
unchanged) if the whole `uint32_t` range is exhausted. -/
def GetAvailableSerial (is_server : Bool) (m : HandlerMap) : Nat × HandlerMap :=
  serialLoop m (if is_server then 1 else 0) (2 ^ 32 - 1 - 3) 3

/-- The admin state relevant to command-handler management: the serial of the
last received command (`command_serial_received_`) and the handler table
(`command_handlers_`). -/
structure AdminState where
  command_serial_received : Nat
  command_handlers : HandlerMap
deriving DecidableEq

/-- `Admin::InsertHandler` (admin.h:113-116). -/
def InsertHandler (serial handler : Nat) (st : AdminState) : AdminState :=
  { st with command_handlers := assocSet serial handler st.command_handlers }

/-- `Admin::EraseHandler` (admin.h:129-132). -/
def EraseHandler (serial : Nat) (st : AdminState) : AdminState :=
  { st with command_handlers := assocErase serial st.command_handlers }

/-- `Admin::ExecuteAndRemoveCommandHandler` (admin.h:119-127).  Note the C++
body ignores its `serial` parameter and works on `command_serial_received_`;
the model keeps the parameter for fidelity.  The second component lists the
handler executions posted to the io_service. -/
def ExecuteAndRemoveCommandHandler (serial : Nat) (st : AdminState) :
    AdminState × List Nat :=
  if h : (assocLookup st.command_serial_received st.command_handlers).isSome then
    ((EraseHandler st.command_serial_received st),
      [(assocLookup st.command_serial_received st.command_handlers).get h])
  else (st, [])

/-- Any nonzero serial returned by `serialLoop` is at least `s + off`, is not
registered in the incoming table, and the loop registers exactly it. -/
theorem serialLoop_success (m : HandlerMap) (off : Nat) (fuel s v : Nat)
    (hv : assocLookup v m = none) (h1 : s + off ≤ v) (h2 : v < s + off + fuel) :
    assocLookup (serialLoop m off fuel s).1 m = none ∧
    (serialLoop m off fuel s).2 = assocSet (serialLoop m off fuel s).1 0 m ∧
    s + off ≤ (serialLoop m off fuel s).1 := by
  induction fuel generalizing s with
  | zero => omega
  | succ f ih =>
    by_cases hp : (assocLookup (s + off) m).isSome
    · have hne : v ≠ s + off := by
        intro he
        rw [← he, hv] at hp
        simp at hp
      have h1b : s + 1 + off ≤ v := by omega
      have h2b : v < s + 1 + off + f := by omega
      obtain ⟨ha, hb, hc⟩ := ih (s + 1) h1b h2b
      have hstep : serialLoop m off (f + 1) s = serialLoop m off f (s + 1) := by
        simp [serialLoop, hp]
      rw [hstep]
      exact ⟨ha, hb, by omega⟩
    · have hnone : assocLookup (s + off) m = none := by
        cases hl : assocLookup (s + off) m with
        | none => rfl
        | some w => rw [hl] at hp; simp at hp
      refine ⟨?_, ?_, ?_⟩ <;> simp [serialLoop, hp, hnone]

/-! ### Proxy configuration (`src/src/common/config/proxy.h`) -/

/-- `ssf::network::Socks::Version` (referenced by proxy.h; values per the
SOCKS proxy config: unknown, v4, v5). -/
inductive SocksVersion
  | kVUnknown
  | kV4
  | kV5
deriving DecidableEq

/-- `ssf::config::HttpProxy` (proxy.h:13-60). -/
structure HttpProxy where
  host : String
  port : String
  user_agent : String
  username : String
  domain : String
  password : String
  reuse_ntlm : Bool
  reuse_kerb : Bool

/-- `HttpProxy::IsSet` (proxy.h:25). -/
def HttpProxy.IsSet (p : HttpProxy) : Bool :=
  !p.host.isEmpty && !p.port.isEmpty

/-- `ssf::config::SocksProxy` (proxy.h:62-93). -/
structure SocksProxy where
  version : SocksVersion
  host : String
  port : String

/-- `SocksProxy::IsSet` (proxy.h:75-78). -/
def SocksProxy.IsSet (p : SocksProxy) : Bool :=
  decide (p.version ≠ SocksVersion.kVUnknown) && !p.host.isEmpty && !p.port.isEmpty

/-! ### Link-layer endpoint construction

The layered `make_endpoint` factories.  An endpoint query is a sequence of
link parameter sets (`ParameterStack`), innermost layer last; a parameter set
maps string keys to string values.  The C++ iterator `parameters_it` is
modelled as the remaining suffix of the sequence; dereferencing past the end
(undefined in C++) reads an empty parameter set.  Error codes are returned
alongside the value (C++ threads `ec` by reference). -/

abbrev ParamSet := List (String × String)

inductive SsfEc
  | success
  | invalid_argument
deriving DecidableEq

/-- TCP endpoint resolved by the physical layer. -/
structure TcpEndpoint where
  addr : String
  port : String
deriving DecidableEq

/-- Modelled from the spec: `make_tcp_endpoint`
(`ssf/layer/physical/tcp_helpers.h`, not in src) resolves the address and
port entries of one layer parameter set; "A layer signals `invalid_argument`
if required keys are missing" (§4.A). -/
def make_tcp_endpoint (ps : ParamSet) : TcpEndpoint × SsfEc :=
  match assocLookup "addr" ps, assocLookup "port" ps with
  | some a, some p => (⟨a, p⟩, SsfEc.success)
  | _, _ => (⟨"", ""⟩, SsfEc.invalid_argument)

/-- `tcp::make_endpoint` (`src/src/network/ssf/layer/physical/tcp.h:50-55`):
delegates to `make_tcp_endpoint` on `*parameters_it`; the physical layer is
innermost (`endpoint_stack_size = 1`) and performs no recursion. -/
def tcp.make_endpoint (params : List ParamSet) : TcpEndpoint × SsfEc :=
  make_tcp_endpoint (params.headD [])

/-- TLS context bundle (spec §6 `tls`: CA cert path, cert path, key path, ...). -/
structure TlsContext where
  ca_cert_path : String
  cert_path : String
  key_path : String
deriving DecidableEq

/-- Modelled from the spec: `make_tls_context`
(`ssf/layer/cryptography/tls/OpenSSL/helpers.h`, not in src) builds a TLS
context from the CA-certificate, certificate and key entries of one
parameter set, yielding a null context when required entries are missing. -/
def make_tls_context (ps : ParamSet) : Option TlsContext :=
  match assocLookup "ca_cert_path" ps, assocLookup "cert_path" ps,
      assocLookup "key_path" ps with
  | some a, some b, some c => some ⟨a, b, c⟩
  | _, _, _ => none

/-- `basic_tls::make_endpoint_context`
(`src/src/network/ssf/layer/cryptography/tls/OpenSSL/impl.h:624-635`):
builds the context from `*parameters_it` only; a null context sets
`invalid_argument`, and the context is returned either way. -/
def basic_tls.make_endpoint_context (params : List ParamSet) :
    Option TlsContext × SsfEc :=
  if (make_tls_context (params.headD [])).isNone then
    (make_tls_context (params.headD []), SsfEc.invalid_argument)
  else (make_tls_context (params.headD []), SsfEc.success)

/-- `ssf::layer::proxy::ProxyEndpointContext`
(`ssf/layer/proxy/proxy_endpoint_context.h`, not in src).  Modelled from the
spec: holds the HTTP proxy configuration of the layer's parameter set
(§6 `http_proxy`: host, port, ...), whether the endpoint is an acceptor
endpoint, and the remote host captured from the next layer's parameters. -/
structure ProxyEndpointContext where
  acceptor_endpoint : Bool
  http_host : String
  http_port : String
  remote_host : String
  remote_port : String
deriving DecidableEq

/-- Modelled from the spec: `MakeProxyContext`
(`ssf/layer/proxy/proxy_helpers.h`, not in src) reads the HTTP proxy
host/port from the layer's parameter set.  Proxy traversal is optional
("optional proxy traversal config", §3), so absent keys yield an unset proxy
configuration rather than an error. -/
def MakeProxyContext (ps : ParamSet) : ProxyEndpointContext × SsfEc :=
  (⟨(assocLookup "acceptor" ps).isSome,
    ((assocLookup "http_host" ps).getD ""),
    ((assocLookup "http_port" ps).getD ""),
    "", ""⟩, SsfEc.success)

/-- The proxy configuration is considered set when host and port are
non-empty (cf. `HttpProxy::IsSet`, proxy.h:25). -/
def ProxyEndpointContext.proxy_set (c : ProxyEndpointContext) : Bool :=
  !c.http_host.isEmpty && !c.http_port.isEmpty

/-- Modelled from the spec: `ProxyEndpointContext::UpdateRemoteHost`
(`ssf/layer/proxy/proxy_endpoint_context.h`, not in src) stores the next
layer's remote host and port in the proxy context and reports success, when
a proxy is configured and the next parameter set names the remote host (the
proxied client connects to the proxy and CONNECTs to the remote host,
§4.A). -/
def UpdateRemoteHost (c : ProxyEndpointContext) (ps : ParamSet) :
    Bool × ProxyEndpointContext :=
  match c.proxy_set, assocLookup "addr" ps, assocLookup "port" ps with
  | true, some h, some p => (true, { c with remote_host := h, remote_port := p })
  | _, _, _ => (false, c)

/-- The virtual-link endpoint of the proxy layer: its context plus the next
layer's endpoint (`none` models a default-constructed next endpoint). -/
structure ProxyEndpoint where
  context : ProxyEndpointContext
  next_endpoint : Option TcpEndpoint
deriving DecidableEq

/-- `basic_ProxyProtocol::make_endpoint`
(`src/src/network/ssf/layer/proxy/basic_proxy_protocol.h:62-82`),
instantiated with the physical TCP layer as `NextLayer` (the standard
proxied-client stack).  Builds the proxy context from `*parameters_it`,
advances the iterator, and either captures the remote host into the context
(returning `endpoint(context)` with no next-layer endpoint) or recursively
builds the next layer's endpoint from the remaining sets. -/
def basic_ProxyProtocol.make_endpoint (params : List ParamSet) :
    ProxyEndpoint × SsfEc :=
  let mk := MakeProxyContext (params.headD [])
  let context := mk.1
  if mk.2 ≠ SsfEc.success then (⟨context, none⟩, mk.2)
  else
    let rest := params.tail
    if context.acceptor_endpoint = false then
      let ur := UpdateRemoteHost context (rest.headD [])
      if ur.1 then (⟨ur.2, none⟩, SsfEc.success)
      else
        let ne := tcp.make_endpoint rest
        (⟨ur.2, some ne.1⟩, ne.2)
    else
      let ne := tcp.make_endpoint rest
      (⟨context, some ne.1⟩, ne.2)

/-! ### Buffered TLS stream adapter

`detail::TLSStreamBufferer`
(`src/src/network/ssf/layer/cryptography/tls/OpenSSL/impl.h:38-273`).

The state tracks the fields of the class: the saved error `status_`, the
`pulling_` flag, the size in bytes of the `data_queue_` streambuf, and the
pending user read operations of `op_queue_` (each recorded by its buffer
size, which is nonzero whenever enqueued).  Two bookkeeping flags model the
asynchronous control flow: `task_pending` records that an invocation of
`async_pull_packets` has been posted or dispatched, and `outstanding` that a
`socket_.async_read_some` pull read is in flight.  The initial state is the
one produced by a successful handshake, which calls `start_pulling()`
(impl.h:342-374).  Each routine of the class is deterministic in this state,
so the routines are pure functions and the step relation only chooses which
posted routine runs next and what the socket read delivers.  Issuing a pull
read while another is in flight is excluded: concurrent read operations on
one `boost::asio::ssl::stream` are outside the library's contract (the two
reads would also share the single `data_queue_.prepare` region). -/

/-- Error codes seen by the bufferer: `operation_aborted` is distinguished
(impl.h:217), all other codes are abstract. -/
inductive ErrC
  | operation_aborted
  | other (n : Nat)
deriving DecidableEq

/-- A completion handed to a user handler: `(error, bytes transferred)`
(`none` is a success error code). -/
abbrev Cmpl := Option ErrC × Nat

/-- `lower_queue_size_bound` (impl.h:44). -/
def lower_queue_size_bound : Nat := 1 * 1024 * 1024

/-- `higher_queue_size_bound` (impl.h:45). -/
def higher_queue_size_bound : Nat := 16 * 1024 * 1024

/-- `receive_buffer_size` (impl.h:46). -/
def receive_buffer_size : Nat := 50 * 1024

/-- The state of a `TLSStreamBufferer`. -/
structure PullerState where
  status : Option ErrC
  pulling : Bool
  task_pending : Bool
  outstanding : Bool
  data_queue : Nat
  op_queue : List Nat
deriving DecidableEq

/-- `start_pulling` (impl.h:74-82): if not pulling, set the flag and post
`async_pull_packets`. -/
def start_pulling (s : PullerState) : PullerState :=
  if s.pulling then s else { s with pulling := true, task_pending := true }

/-- The body of `async_pull_packets` (impl.h:232-246): prepare a
`receive_buffer_size` buffer; if the queue size is below
`higher_queue_size_bound`, issue a pull read on the socket, else clear
`pulling_`. -/
def run_pull_task (s : PullerState) : PullerState :=
  if s.data_queue < higher_queue_size_bound then
    { s with task_pending := false, outstanding := true }
  else
    { s with task_pending := false, pulling := false }

/-- `cancel` (impl.h:122-144): clear `pulling_`, consume the whole data
queue, and complete every pending read operation with `operation_aborted`
and 0 bytes.  The in-flight socket read, if any, is not touched. -/
def cancel (s : PullerState) : PullerState × List Cmpl :=
  ({ s with pulling := false, data_queue := 0, op_queue := [] },
    s.op_queue.map fun _ => (some ErrC.operation_aborted, 0))

/-- The completion handler of the pull read (impl.h:203-230): on success
commit the received bytes and, if no error is saved, re-dispatch
`async_pull_packets`; on `operation_aborted` call `cancel`; on any other
error discard the data queue and save the error as `status_`.  In every
branch `handle_data_n_ops` is dispatched afterwards (a separate step). -/
def pull_complete (e : Option ErrC) (l : Nat) (s : PullerState) :
    PullerState × List Cmpl :=
  match e with
  | none =>
    if s.status = none then
      ({ s with outstanding := false, task_pending := true,
                data_queue := s.data_queue + l }, [])
    else ({ s with outstanding := false, data_queue := s.data_queue + l }, [])
  | some err =>
    if err = ErrC.operation_aborted then cancel { s with outstanding := false }
    else ({ s with outstanding := false, data_queue := 0, status := some err }, [])

/-- `handle_data_n_ops` (impl.h:157-197): with no saved error, restart
pulling when the queue size is under `lower_queue_size_bound` and the
`pulling_` flag is clear, then serve the front read operation if data is
buffered (`fill_buffer` copies up to the operation's buffer size); with a
saved error, complete the front operation with `(status_, 0)`.  The chained
re-dispatch on itself is modelled by this step being repeatable.
`handle_serve` is the serving part (impl.h:170-183): pop the front
operation and complete it with the copied byte count. -/
def handle_serve (s1 : PullerState) : PullerState × List Cmpl :=
  match s1.op_queue with
  | [] => (s1, [])
  | n :: rest =>
    if s1.data_queue ≠ 0 then
      ({ s1 with op_queue := rest,
                 data_queue := s1.data_queue - min n s1.data_queue },
        [(none, min n s1.data_queue)])
    else (s1, [])

def handle_data_n_ops (s : PullerState) : PullerState × List Cmpl :=
  if s.status = none then
    handle_serve
      (if s.data_queue < lower_queue_size_bound && !s.pulling then
        start_pulling s
      else s)
  else
    match s.op_queue with
    | [] => (s, [])
    | _ :: rest => ({ s with op_queue := rest }, [(s.status, 0)])

/-- `async_read_some` (impl.h:88-120): a non-empty buffer sequence is
enqueued on `op_queue_` (and `handle_data_n_ops` is posted — a separate
step); an empty one is completed immediately with a success error code and
0 bytes, without touching the queues. -/
def async_read_some (n : Nat) (s : PullerState) : PullerState × List Cmpl :=
  if n ≠ 0 then ({ s with op_queue := s.op_queue ++ [n] }, [])
  else (s, [(none, 0)])

/-- One scheduler step of the bufferer: run a posted `async_pull_packets`,
deliver the in-flight pull read (success of at most `receive_buffer_size`
bytes, or an error), run a posted `handle_data_n_ops`, accept a user
`async_read_some`, or run a user `cancel`. -/
inductive Step : PullerState → List Cmpl → PullerState → Prop
  | runTask (s : PullerState) : s.task_pending = true → s.outstanding = false →
      Step s [] (run_pull_task s)
  | pullOk (s : PullerState) (l : Nat) : s.outstanding = true →
      l ≤ receive_buffer_size →
      Step s (pull_complete none l s).2 (pull_complete none l s).1
  | pullErr (s : PullerState) (e : ErrC) : s.outstanding = true →
      Step s (pull_complete (some e) 0 s).2 (pull_complete (some e) 0 s).1
  | handle (s : PullerState) :
      Step s (handle_data_n_ops s).2 (handle_data_n_ops s).1
  | readSome (s : PullerState) (n : Nat) :
      Step s (async_read_some n s).2 (async_read_some n s).1
  | cancelStep (s : PullerState) :
      Step s (cancel s).2 (cancel s).1

/-- The state right after a successful handshake called `start_pulling()`. -/
def initState : PullerState :=
  { status := none, pulling := true, task_pending := true, outstanding := false,
    data_queue := 0, op_queue := [] }

/-- States reachable from the post-handshake state. -/
inductive Reachable : PullerState → Prop
  | init : Reachable initState
  | step {s out t} : Reachable s → Step s out t → Reachable t

/-- Invariant: while a pull read is in flight the queue was below the
high-water mark when it was issued (and only shrinks until the commit), so
the queue size always stays below high-water plus one receive record. -/
def Inv (s : PullerState) : Prop :=
  (s.outstanding = true → s.data_queue < higher_queue_size_bound) ∧
    s.data_queue < higher_queue_size_bound + receive_buffer_size

theorem run_pull_task_props (s : PullerState) :
    (run_pull_task s).data_queue = s.data_queue ∧
      (run_pull_task s).status = s.status ∧
      (run_pull_task s).op_queue = s.op_queue := by
  unfold run_pull_task
  split <;> simp

theorem start_pulling_props (s : PullerState) :
    (start_pulling s).data_queue = s.data_queue ∧
      (start_pulling s).outstanding = s.outstanding ∧
      (start_pulling s).status = s.status ∧
      (start_pulling s).op_queue = s.op_queue := by
  unfold start_pulling
  split <;> simp

theorem handle_serve_props (s1 : PullerState) :
    (handle_serve s1).1.data_queue ≤ s1.data_queue ∧
      (handle_serve s1).1.outstanding = s1.outstanding ∧
      (handle_serve s1).1.status = s1.status ∧
      (handle_serve s1).1.pulling = s1.pulling := by
  unfold handle_serve
  cases hq : s1.op_queue with
  | nil => simp
  | cons n rest =>
    by_cases hd : s1.data_queue ≠ 0 <;> simp [hd]

theorem handle_props (s : PullerState) :
    (handle_data_n_ops s).1.data_queue ≤ s.data_queue ∧
      (handle_data_n_ops s).1.outstanding = s.outstanding ∧
      (handle_data_n_ops s).1.status = s.status := by
  unfold handle_data_n_ops
  by_cases hst : s.status = none
  · simp only [if_pos hst]
    by_cases hc : (s.data_queue < lower_queue_size_bound && !s.pulling) = true
    · simp only [if_pos hc]
      obtain ⟨ha, hb, hcc, _⟩ := handle_serve_props (start_pulling s)
      obtain ⟨ua, ub, uc, _⟩ := start_pulling_props s
      exact ⟨ua ▸ ha, hb.trans ub, hcc.trans uc⟩
    · simp only [if_neg hc]
      obtain ⟨ha, hb, hcc, _⟩ := handle_serve_props s
      exact ⟨ha, hb, hcc⟩
  · simp only [if_neg hst]
    cases hq : s.op_queue with
    | nil => simp
    | cons n rest => simp

theorem async_read_some_props (n : Nat) (s : PullerState) :
    (async_read_some n s).1.data_queue = s.data_queue ∧
      (async_read_some n s).1.outstanding = s.outstanding ∧
      (async_read_some n s).1.status = s.status ∧
      (async_read_some n s).1.pulling = s.pulling := by
  unfold async_read_some
  split <;> simp

theorem inv_step {s out t} (hs : Inv s) (h : Step s out t) : Inv t := by
  obtain ⟨h1, h2⟩ := hs
  cases h with
  | runTask ht ho =>
    unfold run_pull_task
    by_cases hq : s.data_queue < higher_queue_size_bound
    · simp only [if_pos hq]
      exact ⟨fun _ => hq, h2⟩
    · simp only [if_neg hq]
      exact ⟨h1, h2⟩
  | pullOk l ho hl =>
    have hlt := h1 ho
    have hb : s.data_queue + l < higher_queue_size_bound + receive_buffer_size := by
      omega
    refine ⟨fun hx => ?_, ?_⟩
    · by_cases hst : s.status = none <;> simp [pull_complete, hst] at hx
    · by_cases hst : s.status = none <;> simpa [pull_complete, hst] using hb
  | pullErr e ho =>
    have hz1 : (0 : Nat) < higher_queue_size_bound := by decide
    have hz2 : (0 : Nat) < higher_queue_size_bound + receive_buffer_size := by
      decide
    by_cases he : e = ErrC.operation_aborted
    · subst he
      exact ⟨fun _ => hz1, hz2⟩
    · simp only [pull_complete, if_neg he]
      exact ⟨fun _ => hz1, hz2⟩
  | handle =>
    obtain ⟨hd, ho, _⟩ := handle_props s
    exact ⟨fun hx => lt_of_le_of_lt hd (h1 (ho.symm.trans hx)),
      lt_of_le_of_lt hd h2⟩
  | readSome n =>
    obtain ⟨hd, ho, _, _⟩ := async_read_some_props n s
    exact ⟨fun hx => hd ▸ h1 (ho.symm.trans hx), hd ▸ h2⟩
  | cancelStep =>
    exact ⟨fun _ => (by decide : (0 : Nat) < higher_queue_size_bound),
      (by decide : (0 : Nat) < higher_queue_size_bound + receive_buffer_size)⟩

theorem reachable_inv {s} (h : Reachable s) : Inv s := by
  induction h with
  | init =>
    constructor <;>
      simp [initState, Inv, higher_queue_size_bound, receive_buffer_size]
  | step hr hstep ih => exact inv_step ih hstep

/-! ## Claim theorems -/

/-- Any serial returned by `serialLoop` is 0 (range exhausted) or the
smallest free serial at or above `s + off`: it is free in the incoming
table and every smaller candidate at or above `s + off` is occupied. -/
theorem serialLoop_min (m : HandlerMap) (off fuel s : Nat) :
    (serialLoop m off fuel s).1 = 0 ∨
      (s + off ≤ (serialLoop m off fuel s).1 ∧
        assocLookup (serialLoop m off fuel s).1 m = none ∧
        ∀ w, s + off ≤ w → w < (serialLoop m off fuel s).1 →
          (assocLookup w m).isSome = true) := by
  induction fuel generalizing s with
  | zero => exact Or.inl rfl
  | succ f ih =>
    by_cases hp : (assocLookup (s + off) m).isSome
    · have hstep : serialLoop m off (f + 1) s = serialLoop m off f (s + 1) := by
        simp [serialLoop, hp]
      rw [hstep]
      rcases ih (s + 1) with h0 | ⟨hle, hfree, hmin⟩
      · exact Or.inl h0
      · refine Or.inr ⟨by omega, hfree, ?_⟩
        intro w hw1 hw2
        by_cases hw : w = s + off
        · rw [hw]
          exact hp
        · exact hmin w (by omega) hw2
    · have hnone : assocLookup (s + off) m = none := by
        cases hl : assocLookup (s + off) m with
        | none => rfl
        | some v2 => rw [hl] at hp; simp at hp
      have hres : serialLoop m off (f + 1) s = (s + off, assocSet (s + off) 0 m) := by
        simp [serialLoop, hp]
      rw [hres]
      exact Or.inr ⟨le_refl _, hnone, fun w hw1 hw2 => absurd hw2 (by omega)⟩

/-- C1 counterexample: the serial spaces of the two sides are neither
parity-partitioned nor disjoint.  A client whose table already holds
serial 3 allocates serial 4, which a server with an empty table also
allocates; moreover the client side returns both an odd serial (3) and an
even serial (4), so neither side is confined to one parity. -/
theorem serial_parity_partition_counterexample :
    (GetAvailableSerial false [(3, 0)]).1 = 4 ∧
      (GetAvailableSerial true []).1 = 4 ∧
      (GetAvailableSerial false []).1 = 3 := by
  refine ⟨?_, ?_, ?_⟩ <;> decide

/-- C1 (amended): serial allocation separates the two sides only by a start
offset, not by parity: apart from the sentinel 0 on range exhaustion, every
serial the client (`is_server_` false) allocates is the smallest serial
of its own table that is free and at least 3, and every serial the server
allocates is the smallest free serial at least 4 — the result is free in
the allocating side's own table and every smaller candidate at or above
the side's start is occupied.  So only serial 3 is exclusive to the client
side, and the two sides' serial spaces overlap and are not disjoint. -/
theorem getAvailableSerial_offset_allocation (b : Bool) (m : HandlerMap)
    (h0 : (GetAvailableSerial b m).1 ≠ 0) :
    (if b then 4 else 3) ≤ (GetAvailableSerial b m).1 ∧
      assocLookup (GetAvailableSerial b m).1 m = none ∧
      ∀ w, (if b then 4 else 3) ≤ w → w < (GetAvailableSerial b m).1 →
        (assocLookup w m).isSome = true := by
  have heq : GetAvailableSerial b m
      = serialLoop m (if b then 1 else 0) (2 ^ 32 - 1 - 3) 3 := rfl
  rw [heq] at h0 ⊢
  rcases serialLoop_min m (if b then 1 else 0) (2 ^ 32 - 1 - 3) 3 with
    h | ⟨hle, hfree, hmin⟩
  · exact absurd h h0
  · refine ⟨?_, hfree, ?_⟩
    · cases b <;> simp at hle ⊢ <;> omega
    · intro w hw1 hw2
      refine hmin w ?_ hw2
      cases b <;> simp at hw1 ⊢ <;> omega

/-- C1 (amended) witness: a server whose table holds serial 4 allocates
serial 5 — free, at least 4, and with the skipped candidate 4 occupied. -/
theorem getAvailableSerial_offset_allocation_witness :
    4 ≤ (GetAvailableSerial true ([(4, 0)] : HandlerMap)).1 ∧
      assocLookup (GetAvailableSerial true [(4, 0)]).1
        ([(4, 0)] : HandlerMap) = none ∧
      (assocLookup 4 ([(4, 0)] : HandlerMap)).isSome = true :=
  ⟨(getAvailableSerial_offset_allocation true [(4, 0)] (by decide)).1,
    (getAvailableSerial_offset_allocation true [(4, 0)] (by decide)).2.1,
    (getAvailableSerial_offset_allocation true [(4, 0)] (by decide)).2.2 4
      (by decide) (by decide)⟩

/-- C3: when a reply with serial `s` has been received
(`command_serial_received_ = s`) and a handler is registered under `s`,
`ExecuteAndRemoveCommandHandler` posts exactly one execution of that
handler, erases the entry for `s`, and a repeated call afterwards executes
nothing. -/
theorem executeAndRemoveCommandHandler_exactly_once (s h : Nat)
    (st : AdminState) (hrecv : st.command_serial_received = s)
    (hreg : assocLookup s st.command_handlers = some h) :
    (ExecuteAndRemoveCommandHandler s st).2 = [h] ∧
      assocLookup s (ExecuteAndRemoveCommandHandler s st).1.command_handlers
        = none ∧
      (ExecuteAndRemoveCommandHandler s
        (ExecuteAndRemoveCommandHandler s st).1).2 = [] := by
  refine ⟨?_, ?_, ?_⟩ <;>
    simp [ExecuteAndRemoveCommandHandler, EraseHandler, hrecv, hreg,
      assocLookup_assocErase_self]

/-- C3 witness: concrete run with serial 5 and handler 7. -/
theorem executeAndRemoveCommandHandler_exactly_once_witness :
    (ExecuteAndRemoveCommandHandler 5 ⟨5, [(5, 7)]⟩).2 = [7] ∧
      assocLookup 5
        (ExecuteAndRemoveCommandHandler 5 ⟨5, [(5, 7)]⟩).1.command_handlers
        = none ∧
      (ExecuteAndRemoveCommandHandler 5
        (ExecuteAndRemoveCommandHandler 5 ⟨5, [(5, 7)]⟩).1).2 = [] :=
  executeAndRemoveCommandHandler_exactly_once 5 7 ⟨5, [(5, 7)]⟩ rfl rfl

/-- C4: as long as the `uint32_t` serial range is not exhausted (some serial
in the probed range is free), `GetAvailableSerial` returns a serial with no
handler currently registered and registers it (with the placeholder handler,
id 0) before returning — so a serial whose handler remains registered is
never issued again. -/
theorem getAvailableSerial_fresh_and_registered (b : Bool) (m : HandlerMap)
    (v : Nat) (hv : assocLookup v m = none)
    (hlo : 3 + (if b then 1 else 0) ≤ v)
    (hhi : v < 2 ^ 32 - 1 + (if b then 1 else 0)) :
    assocLookup (GetAvailableSerial b m).1 m = none ∧
      assocLookup (GetAvailableSerial b m).1 (GetAvailableSerial b m).2
        = some 0 := by
  have hfuel : v < 3 + (if b then 1 else 0) + (2 ^ 32 - 1 - 3) := by
    have e1 : (2 : Nat) ^ 32 - 1 - 3 = 4294967292 := by norm_num
    have e2 : (2 : Nat) ^ 32 - 1 = 4294967295 := by norm_num
    rw [e1]
    rw [e2] at hhi
    cases b <;> simp at hhi ⊢ <;> omega
  obtain ⟨h1, h2, h3⟩ :=
    serialLoop_success m (if b then 1 else 0) (2 ^ 32 - 1 - 3) 3 v hv hlo hfuel
  refine ⟨h1, ?_⟩
  have h2b : (GetAvailableSerial b m).2
      = assocSet (GetAvailableSerial b m).1 0 m := h2
  rw [h2b]
  exact assocLookup_assocSet_self _ 0 m

/-- C4 witness: a client with an empty table allocates serial 3, fresh and
then registered. -/
theorem getAvailableSerial_fresh_and_registered_witness :
    assocLookup (GetAvailableSerial false []).1 ([] : HandlerMap) = none ∧
      assocLookup (GetAvailableSerial false []).1
        (GetAvailableSerial false []).2 = some 0 :=
  getAvailableSerial_fresh_and_registered false [] 3 (by decide) (by decide)
    (by decide)

theorem string_isEmpty_false_iff (s : String) : (s.isEmpty = false) ↔ s ≠ "" := by
  cases hb : s.isEmpty
  · have hne : ¬s = "" := fun hc => by
      rw [hc] at hb
      revert hb
      decide
    simp [hne]
  · have hiff := String.isEmpty_iff (s := s)
    have hs : s = "" := hiff.mp hb
    simp [hs]

/-- C10: a proxy configuration is reported as set only when fully addressed:
`HttpProxy::IsSet` holds exactly when host and port are non-empty, and
`SocksProxy::IsSet` exactly when additionally the version is known. -/
theorem proxy_isSet_iff (hp : HttpProxy) (sp : SocksProxy) :
    (hp.IsSet = true ↔ (hp.host ≠ "" ∧ hp.port ≠ "")) ∧
      (sp.IsSet = true ↔
        (sp.version ≠ SocksVersion.kVUnknown ∧ sp.host ≠ "" ∧ sp.port ≠ "")) := by
  constructor <;>
    simp [HttpProxy.IsSet, SocksProxy.IsSet, string_isEmpty_false_iff,
      and_assoc]

/-- C2 counterexample: the proxy layer does not always build the next
layer's endpoint recursively.  With a parameter sequence whose first set
configures an HTTP proxy and whose second set names the remote host, the
proxy layer's `make_endpoint` captures the remote host into its own context
and returns an endpoint with no next-layer endpoint at all — even though
the remaining set resolves to a perfectly valid TCP endpoint — consuming
data from the next layer's parameter set in the process. -/
theorem proxy_make_endpoint_skips_next_layer :
    (basic_ProxyProtocol.make_endpoint
        [[("http_host", "proxy.example"), ("http_port", "3128")],
          [("addr", "10.0.0.5"), ("port", "443")]]).1.next_endpoint = none ∧
      tcp.make_endpoint [[("addr", "10.0.0.5"), ("port", "443")]]
        = (⟨"10.0.0.5", "443"⟩, SsfEc.success) := by
  constructor <;> rfl

/-- C2 (amended): each link layer consumes exactly one parameter set — its
result depends only on `*parameters_it` and, where a next layer exists, on
the remaining sets.  The physical TCP layer resolves its own set and signals
`invalid_argument` exactly when the address or port key is missing; the TLS
layer builds its context from its own set and signals `invalid_argument`
exactly when the context entries are missing; the proxy layer recursively
builds the next layer's endpoint from the remaining sets — except when (on
a non-acceptor endpoint) a configured proxy captures the remote host from
the following set, in which case no next-layer endpoint is built. -/
theorem make_endpoint_consumes_one_param_set (ps : ParamSet)
    (rest : List ParamSet) :
    (tcp.make_endpoint (ps :: rest) = make_tcp_endpoint ps) ∧
      ((tcp.make_endpoint (ps :: rest)).2 = SsfEc.invalid_argument ↔
        (assocLookup "addr" ps = none ∨ assocLookup "port" ps = none)) ∧
      ((basic_tls.make_endpoint_context (ps :: rest)).1 = make_tls_context ps) ∧
      ((basic_tls.make_endpoint_context (ps :: rest)).2 = SsfEc.invalid_argument
        ↔ make_tls_context ps = none) ∧
      ((MakeProxyContext ps).1.acceptor_endpoint = true ∨
          (UpdateRemoteHost (MakeProxyContext ps).1 (rest.headD [])).1 = false →
        (basic_ProxyProtocol.make_endpoint (ps :: rest)).1.next_endpoint
            = some (tcp.make_endpoint rest).1 ∧
          (basic_ProxyProtocol.make_endpoint (ps :: rest)).2
            = (tcp.make_endpoint rest).2) ∧
      ((MakeProxyContext ps).1.acceptor_endpoint = false ∧
          (UpdateRemoteHost (MakeProxyContext ps).1 (rest.headD [])).1 = true →
        (basic_ProxyProtocol.make_endpoint (ps :: rest)).1.next_endpoint
          = none) := by
  refine ⟨rfl, ?_, ?_, ?_, ?_, ?_⟩
  · unfold tcp.make_endpoint make_tcp_endpoint
    cases ha : assocLookup "addr" ps <;> cases hb : assocLookup "port" ps <;>
      simp [ha, hb]
  · unfold basic_tls.make_endpoint_context
    split <;> rfl
  · unfold basic_tls.make_endpoint_context
    simp only [List.headD_cons]
    cases hc : make_tls_context ps <;> simp [hc]
  · intro hcase
    unfold basic_ProxyProtocol.make_endpoint
    cases hopt : assocLookup "acceptor" ps with
    | some a => simp [MakeProxyContext, hopt]
    | none =>
      rcases hcase with hacc | hupd
      · simp [MakeProxyContext, hopt] at hacc
      · simp [MakeProxyContext, hopt] at hupd ⊢
        simp [hupd]
  · rintro ⟨hacc, hupd⟩
    unfold basic_ProxyProtocol.make_endpoint
    cases hopt : assocLookup "acceptor" ps with
    | some a => simp [MakeProxyContext, hopt] at hacc
    | none =>
      simp [MakeProxyContext, hopt] at hupd ⊢
      simp [hupd]

/-- C2 witness: on an acceptor endpoint the proxy layer recursively builds
the TCP endpoint from the remaining parameter sets. -/
theorem make_endpoint_consumes_one_param_set_witness :
    (basic_ProxyProtocol.make_endpoint
        [[("acceptor", "1")], [("addr", "127.0.0.1"), ("port", "8011")]]
      ).1.next_endpoint
        = some (tcp.make_endpoint [[("addr", "127.0.0.1"), ("port", "8011")]]).1
      ∧ (basic_ProxyProtocol.make_endpoint
          [[("acceptor", "1")], [("addr", "127.0.0.1"), ("port", "8011")]]).2
        = (tcp.make_endpoint [[("addr", "127.0.0.1"), ("port", "8011")]]).2 :=
  (make_endpoint_consumes_one_param_set [("acceptor", "1")]
    [[("addr", "127.0.0.1"), ("port", "8011")]]).2.2.2.2.1 (Or.inl (by decide))

/-- C5: in every reachable state of the bufferer, the data queue size never
exceeds the 16 MiB high-water mark by more than one 50 KiB receive record:
a pull read is issued only when the queue is strictly below the high-water
mark, and each pull commits at most `receive_buffer_size` bytes. -/
theorem data_queue_bounded (s : PullerState) (hr : Reachable s) :
    s.data_queue ≤ higher_queue_size_bound + receive_buffer_size :=
  le_of_lt (reachable_inv hr).2

/-- C5 witness: the bound holds at the post-handshake initial state. -/
theorem data_queue_bounded_witness :
    initState.data_queue ≤ higher_queue_size_bound + receive_buffer_size :=
  data_queue_bounded initState Reachable.init

/-- C9: an `async_read_some` whose buffer sequence has total size 0
completes immediately with a success error code and 0 bytes, without being
enqueued — the state (hence the read-operation queue, the saved status and
the buffered data) is untouched, whatever they are. -/
theorem async_read_some_zero_buffer (s : PullerState) :
    (async_read_some 0 s).1 = s ∧ (async_read_some 0 s).2 = [(none, 0)] :=
  ⟨rfl, rfl⟩

/-- C6: a pull read completing with an error other than `operation_aborted`
discards the data queue, saves the error as the adapter status and completes
no user operation itself; in the errored state every pending read operation
is completed with the saved error and 0 bytes, and a subsequently enqueued
non-empty read is completed likewise. -/
theorem pull_error_fails_reads (s : PullerState) (e : ErrC)
    (he : e ≠ ErrC.operation_aborted) :
    ((pull_complete (some e) 0 s).1.data_queue = 0 ∧
        (pull_complete (some e) 0 s).1.status = some e ∧
        (pull_complete (some e) 0 s).2 = []) ∧
      (s.status = some e → ∀ n rest, s.op_queue = n :: rest →
        (handle_data_n_ops s).2 = [(some e, 0)] ∧
          (handle_data_n_ops s).1.op_queue = rest) ∧
      (s.status = some e → ∀ n, n ≠ 0 → s.op_queue = [] →
        (handle_data_n_ops (async_read_some n s).1).2 = [(some e, 0)]) := by
  refine ⟨⟨?_, ?_, ?_⟩, ?_, ?_⟩
  · simp [pull_complete, he]
  · simp [pull_complete, he]
  · simp [pull_complete, he]
  · intro hst n rest hq
    unfold handle_data_n_ops
    constructor <;> simp [hst, hq]
  · intro hst n hn hq
    unfold handle_data_n_ops async_read_some
    simp [hst, hq, hn]

/-- C6 witness: concrete run with error code 42 from the in-flight pull,
then a pending and a fresh read both failing with it. -/
theorem pull_error_fails_reads_witness :
    ((pull_complete (some (ErrC.other 42)) 0
          ⟨some (ErrC.other 42), true, false, false, 7, [4]⟩).1.data_queue = 0 ∧
        (pull_complete (some (ErrC.other 42)) 0
          ⟨some (ErrC.other 42), true, false, false, 7, [4]⟩).1.status
          = some (ErrC.other 42) ∧
        (pull_complete (some (ErrC.other 42)) 0
          ⟨some (ErrC.other 42), true, false, false, 7, [4]⟩).2 = []) ∧
      (handle_data_n_ops
          (⟨some (ErrC.other 42), true, false, false, 7, [4]⟩ : PullerState)).2
        = [(some (ErrC.other 42), 0)] ∧
      (handle_data_n_ops
          (⟨some (ErrC.other 42), true, false, false, 7, [4]⟩ :
            PullerState)).1.op_queue = [] :=
  ⟨(pull_error_fails_reads ⟨some (ErrC.other 42), true, false, false, 7, [4]⟩
      (ErrC.other 42) (by decide)).1,
    (pull_error_fails_reads ⟨some (ErrC.other 42), true, false, false, 7, [4]⟩
      (ErrC.other 42) (by decide)).2.1 rfl 4 [] rfl⟩

/-- C7 counterexample: `cancel` does not stop the cancelled pull loop.
Starting from the post-handshake state, a pull read is issued; `cancel` then
clears the pulling flag, but the in-flight read completes successfully,
re-posts the pull loop, and the posted iteration issues a further pull read
(`outstanding` becomes true again) even though the pulling flag is false
throughout. -/
theorem cancel_pull_loop_counterexample :
    (run_pull_task initState).outstanding = true ∧
      Reachable (run_pull_task initState) ∧
      (cancel (run_pull_task initState)).1.pulling = false ∧
      Step (run_pull_task initState) (cancel (run_pull_task initState)).2
        (cancel (run_pull_task initState)).1 ∧
      Step (cancel (run_pull_task initState)).1
        (pull_complete none 5 (cancel (run_pull_task initState)).1).2
        (pull_complete none 5 (cancel (run_pull_task initState)).1).1 ∧
      (pull_complete none 5
        (cancel (run_pull_task initState)).1).1.outstanding = false ∧
      (pull_complete none 5
        (cancel (run_pull_task initState)).1).1.pulling = false ∧
      Step (pull_complete none 5 (cancel (run_pull_task initState)).1).1 []
        (run_pull_task
          (pull_complete none 5 (cancel (run_pull_task initState)).1).1) ∧
      (run_pull_task
          (pull_complete none 5
            (cancel (run_pull_task initState)).1).1).outstanding = true :=
  ⟨by decide,
    Reachable.step Reachable.init
      (Step.runTask initState (by decide) (by decide)),
    by decide,
    Step.cancelStep _,
    Step.pullOk _ 5 (by decide) (by decide),
    by decide, by decide,
    Step.runTask _ (by decide) (by decide),
    by decide⟩

/-- C7 (amended): `cancel` empties the internal data queue, completes every
operation pending in the read-operation queue with `operation_aborted` and
0 bytes, and sets the pulling flag to false — but this does not prevent
further pull reads: a pull-loop iteration already posted, or an in-flight
pull read completing successfully, restarts the loop, because
`async_pull_packets` rechecks only the queue bound, never the pulling
flag. -/
theorem cancel_effects (s : PullerState) :
    (cancel s).1.data_queue = 0 ∧
      (cancel s).1.op_queue = [] ∧
      (cancel s).2 = s.op_queue.map (fun _ => (some ErrC.operation_aborted, 0)) ∧
      (cancel s).1.pulling = false :=
  ⟨rfl, rfl, rfl, rfl⟩

/-- C8: the pull state machine pauses — clears the pulling flag without
issuing a read — whenever the pull-loop iteration finds the queue at or
above the 16 MiB high-water mark; a step can turn the pulling flag from
false to true only when `handle_data_n_ops` observes the queue strictly
below the 1 MiB low-water mark with no saved error; and conversely, from a
paused error-free state below the low-water mark, processing user read
operations does restart pulling. -/
theorem pull_pause_resume :
    (∀ s : PullerState, higher_queue_size_bound ≤ s.data_queue →
      (run_pull_task s).pulling = false ∧
        (run_pull_task s).outstanding = s.outstanding) ∧
      (∀ s out t, Step s out t → s.pulling = false → t.pulling = true →
        s.data_queue < lower_queue_size_bound ∧ s.status = none) ∧
      (∀ s : PullerState, s.pulling = false → s.status = none →
        s.data_queue < lower_queue_size_bound →
        (handle_data_n_ops s).1.pulling = true) := by
  refine ⟨?_, ?_, ?_⟩
  · intro s h
    unfold run_pull_task
    rw [if_neg (by omega)]
    exact ⟨rfl, rfl⟩
  · intro s out t hstep hp hq
    cases hstep with
    | runTask ht ho =>
      unfold run_pull_task at hq
      split at hq <;> simp [hp] at hq
    | pullOk l ho hl =>
      by_cases hst : s.status = none <;> simp [pull_complete, hst, hp] at hq
    | pullErr e ho =>
      by_cases he : e = ErrC.operation_aborted
      · subst he
        simp [pull_complete, cancel] at hq
      · simp [pull_complete, he, hp] at hq
    | handle =>
      unfold handle_data_n_ops at hq
      by_cases hst : s.status = none
      · rw [if_pos hst] at hq
        by_cases hc : (s.data_queue < lower_queue_size_bound && !s.pulling) = true
        · simp [hp] at hc
          exact ⟨hc, hst⟩
        · rw [if_neg hc] at hq
          obtain ⟨-, -, -, hpp⟩ := handle_serve_props s
          rw [hpp, hp] at hq
          simp at hq
      · rw [if_neg hst] at hq
        cases hqq : s.op_queue with
        | nil => simp [hqq, hp] at hq
        | cons a b => simp [hqq, hp] at hq
    | readSome n =>
      obtain ⟨-, -, -, hpp⟩ := async_read_some_props n s
      rw [hpp, hp] at hq
      simp at hq
    | cancelStep =>
      simp [cancel] at hq
  · intro s hp hst hd
    unfold handle_data_n_ops
    rw [if_pos hst, if_pos (by simp [hp, hd])]
    obtain ⟨-, -, -, hpp⟩ := handle_serve_props (start_pulling s)
    rw [hpp]
    unfold start_pulling
    rw [if_neg (by simp [hp])]

/-- C8 witness: a pull-loop iteration at the high-water mark pauses without
issuing a read; a paused error-free state below the low-water mark is
restarted by a `handle_data_n_ops` step, which is the only kind of
transition that may set the pulling flag. -/
theorem pull_pause_resume_witness :
    ((run_pull_task
        ⟨none, true, true, false, higher_queue_size_bound, []⟩).pulling = false ∧
      (run_pull_task
        ⟨none, true, true, false, higher_queue_size_bound, []⟩).outstanding
        = false) ∧
      ((⟨none, false, false, false, 0, []⟩ :
          PullerState).data_queue < lower_queue_size_bound ∧
        (⟨none, false, false, false, 0, []⟩ : PullerState).status = none) ∧
      (handle_data_n_ops
        (⟨none, false, false, false, 0, []⟩ : PullerState)).1.pulling = true :=
  ⟨pull_pause_resume.1 ⟨none, true, true, false, higher_queue_size_bound, []⟩
      (by decide),
    pull_pause_resume.2.1 ⟨none, false, false, false, 0, []⟩
      (handle_data_n_ops (⟨none, false, false, false, 0, []⟩ : PullerState)).2
      (handle_data_n_ops (⟨none, false, false, false, 0, []⟩ : PullerState)).1
      (Step.handle ⟨none, false, false, false, 0, []⟩) rfl (by decide),
    pull_pause_resume.2.2 ⟨none, false, false, false, 0, []⟩ rfl rfl (by decide)⟩

end SSFSpec
